import Mathlib

/-!
Verification of the CraftMyFlow search/ranking module and conversational
chat controller against their natural-language specification.

Strings of the TypeScript source are embedded as lists of characters
(`Str`), so that the exact semantics of the source's string operations
(`toLowerCase`, `includes`, `split(' ')`, `trim`) can be modelled and
evaluated by the kernel.  External effects (the realtime-database fetches,
the Gemini AI calls, the webhook POST) are passed in as explicit
parameters of type `Except Unit _` or `Option _`: an `.error` value stands
for a thrown/rejected promise, an `.ok` value for a resolved one.
-/

/-- Strings are modelled as lists of characters (JS strings are sequences
of code units; all inputs used here are plain characters). -/
abbrev Str := List Char

/-- Converts a Lean string literal to the embedded string type. -/
def strOf (s : String) : Str := s.data

/-- Embeds `String.prototype.toLowerCase` (ASCII case mapping suffices for
every concrete input appearing in this development). -/
def strToLower (s : Str) : Str := s.map Char.toLower

/-- `isPrefixB sub s` is true when `sub` is a prefix of `s`. -/
def isPrefixB : Str → Str → Bool
  | [], _ => true
  | _ :: _, [] => false
  | a :: as, b :: bs => a == b && isPrefixB as bs

/-- Embeds `s.includes(sub)` of JavaScript: `sub` occurs contiguously in
`s` (every string includes the empty string). -/
def includesB : Str → Str → Bool
  | [], sub => isPrefixB sub []
  | c :: rest, sub => isPrefixB sub (c :: rest) || includesB rest sub

/-- Embeds `s.split(' ')` of JavaScript: split at every occurrence of the
single space character, keeping empty fragments; the empty string splits
to `[""]`. -/
def splitOnSpace : Str → List Str
  | [] => [[]]
  | c :: cs =>
    match splitOnSpace cs with
    | [] => [[]]
    | w :: ws => if c = ' ' then [] :: w :: ws else (c :: w) :: ws

/-- The characters JavaScript's `trim` removes (ASCII subset; sufficient
for the inputs of this development). -/
def isSpaceChar (c : Char) : Bool := c == ' ' || c == '\t' || c == '\n' || c == '\r'

/-- Embeds `s.trim()` of JavaScript: drop whitespace from both ends. -/
def strTrim (s : Str) : Str :=
  ((s.dropWhile isSpaceChar).reverse.dropWhile isSpaceChar).reverse

/-- Split into maximal runs of non-whitespace characters, dropping empty
fragments: the literal "whitespace-separated words" reading used by the
specification's scoring formula (claim C2), in contrast to the source's
`split(' ')`. -/
def splitOnWhitespace : Str → List Str
  | [] => [[]]
  | c :: cs =>
    match splitOnWhitespace cs with
    | [] => [[]]
    | w :: ws => if isSpaceChar c then [] :: w :: ws else (c :: w) :: ws

/-- Whitespace-separated words of a string (empty fragments dropped). -/
def whitespaceWords (s : Str) : List Str :=
  (splitOnWhitespace s).filter (fun w => w ≠ [])

/-- Embeds `calculateRelevance` of the SearchSystem component
(src/unnamed/part_003, lines 189-217): lowercase the query and each
field; for each non-empty field at index `i`, add
`(fields.length - i) * 10` when the lowered field contains the lowered
query, and `(fields.length - i) * 2` for every (query-word, field-word)
pair, split on the space character, where one word contains the other.
Empty fields are skipped by the source's `if (!field) return;`. -/
def calculateRelevance (query : Str) (fields : List Str) : Nat :=
  let queryLower := strToLower query
  fields.enum.foldl
    (fun score p =>
      if p.2 = ([] : Str) then score
      else
        let fieldLower := strToLower p.2
        let score1 :=
          if includesB fieldLower queryLower then score + (fields.length - p.1) * 10
          else score
        let queryWords := splitOnSpace queryLower
        let fieldWords := splitOnSpace fieldLower
        queryWords.foldl
          (fun s1 qw =>
            fieldWords.foldl
              (fun s2 fw =>
                if includesB fw qw || includesB qw fw then s2 + (fields.length - p.1) * 2
                else s2)
              s1)
          score1)
    0

/-- Number of (query-word, field-word) pairs where one word contains the
other as a substring. -/
def matchingPairs (qws fws : List Str) : Nat :=
  (qws.map (fun qw => (fws.filter (fun fw => includesB fw qw || includesB qw fw)).length)).sum

/-- Per-field score of claim C2 exactly as written: substring bonus plus
word-pair bonus over whitespace-separated words, with no special case for
empty fields. -/
def claimFieldScore (n i : Nat) (queryLower field : Str) : Nat :=
  (if includesB (strToLower field) queryLower then (n - i) * 10 else 0)
    + (n - i) * 2 * matchingPairs (whitespaceWords queryLower) (whitespaceWords (strToLower field))

/-- The total relevance score claim C2 predicts, as written. -/
def claimRelevance (query : Str) (fields : List Str) : Nat :=
  (fields.enum.map (fun p => claimFieldScore fields.length p.1 (strToLower query) p.2)).sum

/-- Per-field score of the source's actual formula: as `claimFieldScore`
but words are obtained by splitting on the single space character with
empty fragments kept, and an empty field contributes nothing. -/
def amendedFieldScore (n i : Nat) (queryLower field : Str) : Nat :=
  if field = ([] : Str) then 0
  else
    (if includesB (strToLower field) queryLower then (n - i) * 10 else 0)
      + (n - i) * 2 * matchingPairs (splitOnSpace queryLower) (splitOnSpace (strToLower field))

/-- The total relevance score of the corrected formula. -/
def amendedRelevance (query : Str) (fields : List Str) : Nat :=
  (fields.enum.map (fun p => amendedFieldScore fields.length p.1 (strToLower query) p.2)).sum

/-- The two UI languages. -/
inductive Lang where
  | en
  | ar
deriving DecidableEq

/-- A `{ en, ar }` localized text pair. -/
structure LocalizedText where
  en : Str
  ar : Str
deriving DecidableEq

/-- Selects the text for the given language. -/
def LocalizedText.pick (t : LocalizedText) (lang : Lang) : Str :=
  match lang with
  | .en => t.en
  | .ar => t.ar

/-- Embeds the source's `x?.[lang] || ''` defaulting on possibly missing
localized fields: a missing field yields the empty string. -/
def optLoc (o : Option LocalizedText) (lang : Lang) : Str :=
  match o with
  | some t => t.pick lang
  | none => []

/-- A project record as read from the `projects` collection; the search
code treats `title`, `description` and `category` as possibly missing. -/
structure ProjectRec where
  title : Option LocalizedText
  description : Option LocalizedText
  category : Option LocalizedText
  image : Option Str
deriving DecidableEq

/-- A service record as read from the `services` collection. -/
structure ServiceRec where
  title : Option LocalizedText
  desc : Option LocalizedText
deriving DecidableEq

/-- A community-post record as read from the `communityPosts` collection;
posts carry plain (non-localized) title and description. -/
structure PostRec where
  title : Str
  description : Str
  isApproved : Bool
deriving DecidableEq

/-- The kind tag of a search result. -/
inductive ResultType where
  | project
  | service
  | post
deriving DecidableEq

/-- Embeds the `SearchResult` interface of src/unnamed/part_003. -/
structure SearchResult where
  id : Str
  title : Str
  description : Str
  type : ResultType
  category : Option Str
  image : Option Str
  relevanceScore : Nat
deriving DecidableEq

/-- The collection filter of the search UI. -/
inductive TypeFilter where
  | all
  | project
  | service
  | post
deriving DecidableEq

/-- The sort mode of the search UI. -/
inductive SortKey where
  | relevance
  | title
deriving DecidableEq

/-- The filter state `{ type, sortBy }` (the source also has an unused
`category` filter entry; it is never read by performSearch). -/
structure Filters where
  type : TypeFilter
  sortBy : SortKey
deriving DecidableEq

/-- Initial filter state of the component: `{ type: 'all', sortBy: 'relevance' }`. -/
def filtersInit : Filters := { type := .all, sortBy := .relevance }

/-- Outcomes of the three collection fetches of `performSearch`: `.ok`
carries the `(key, value)` children of the snapshot in iteration order,
`.error` models a rejected fetch promise. -/
structure FetchEnv where
  projects : Except Unit (List (Str × ProjectRec))
  services : Except Unit (List (Str × ServiceRec))
  posts : Except Unit (List (Str × PostRec))

/-- The per-project body of the `projects` loop in `performSearch`
(src/unnamed/part_003, lines 100-119): score the title/description/category
fields and keep the record only when the relevance is positive. -/
def projectResult (lang : Lang) (query : Str) (kv : Str × ProjectRec) : Option SearchResult :=
  let p := kv.2
  let relevance := calculateRelevance query
    [optLoc p.title lang, optLoc p.description lang, optLoc p.category lang]
  if relevance > 0 then
    some { id := kv.1, title := optLoc p.title lang, description := optLoc p.description lang,
           type := .project, category := some (optLoc p.category lang), image := p.image,
           relevanceScore := relevance }
  else none

/-- The per-service body of the `services` loop (lines 125-141). -/
def serviceResult (lang : Lang) (query : Str) (kv : Str × ServiceRec) : Option SearchResult :=
  let s := kv.2
  let relevance := calculateRelevance query [optLoc s.title lang, optLoc s.desc lang]
  if relevance > 0 then
    some { id := kv.1, title := optLoc s.title lang, description := optLoc s.desc lang,
           type := .service, category := none, image := none, relevanceScore := relevance }
  else none

/-- The per-post body of the `communityPosts` loop (lines 147-165): only
approved posts are scored. -/
def postResult (query : Str) (kv : Str × PostRec) : Option SearchResult :=
  let post := kv.2
  if post.isApproved then
    let relevance := calculateRelevance query [post.title, post.description]
    if relevance > 0 then
      some { id := kv.1, title := post.title, description := post.description,
             type := .post, category := none, image := none, relevanceScore := relevance }
    else none
  else none

/-- Lexicographic comparison of embedded strings, standing in for
`localeCompare` returning a negative value (only the title sort mode uses
it; no claim depends on its exact collation). -/
def strLt : Str → Str → Bool
  | [], [] => false
  | [], _ :: _ => true
  | _ :: _, [] => false
  | a :: as, b :: bs => if a < b then true else if b < a then false else strLt as bs

/-- Stable insertion used by `stableSort`: `lt y x` means `y` must come
strictly before `x`. -/
def insertStable {α : Type} (lt : α → α → Bool) (x : α) : List α → List α
  | [] => [x]
  | y :: ys => if lt y x then y :: insertStable lt x ys else x :: y :: ys

/-- A stable sort, modelling `Array.prototype.sort` with a comparator
(ECMAScript sorts are stable). -/
def stableSort {α : Type} (lt : α → α → Bool) (l : List α) : List α :=
  l.foldr (insertStable lt) []

/-- Embeds the result sorting switch of `performSearch` (lines 169-177). -/
def sortResults (sb : SortKey) (l : List SearchResult) : List SearchResult :=
  match sb with
  | .relevance => stableSort (fun a b => decide (b.relevanceScore < a.relevanceScore)) l
  | .title => stableSort (fun a b => strLt a.title b.title) l

/-- Embeds `saveSearchToHistory` (src/unnamed/part_003, lines 72-86): push
the query to the front, drop earlier duplicates, cap at 10 (the analytics
counter increments it also performs live in the shared store and are not
part of the history value). -/
def saveSearchToHistory (query : Str) (history : List Str) : List Str :=
  (query :: history.filter (fun h => h ≠ query)).take 10

/-- The component state of SearchSystem that the claims observe. -/
structure SearchState where
  searchQuery : Str
  searchResults : List SearchResult
  isSearching : Bool
  showResults : Bool
  searchHistory : List Str
deriving DecidableEq

/-- The initial SearchSystem state. -/
def searchStateInit : SearchState :=
  { searchQuery := [], searchResults := [], isSearching := false,
    showResults := false, searchHistory := [] }

/-- True when the fetch outcome is a rejection. -/
def isErr {α : Type} : Except Unit α → Bool
  | .error _ => true
  | .ok _ => false

/-- The body of the `try` block of `performSearch` (lines 94-181): the
three fetches run sequentially inside one `try`, so the first rejection
aborts the whole block; a collection excluded by the type filter is not
fetched at all.  On success the concatenated per-collection results are
returned in push order. -/
def searchBody (lang : Lang) (query : Str) (filters : Filters) (env : FetchEnv) :
    Except Unit (List SearchResult) :=
  match (if filters.type = TypeFilter.all ∨ filters.type = TypeFilter.project
         then env.projects else .ok []) with
  | .error e => .error e
  | .ok projs =>
    match (if filters.type = TypeFilter.all ∨ filters.type = TypeFilter.service
           then env.services else .ok []) with
    | .error e => .error e
    | .ok servs =>
      match (if filters.type = TypeFilter.all ∨ filters.type = TypeFilter.post
             then env.posts else .ok []) with
      | .error e => .error e
      | .ok posts =>
        .ok (projs.filterMap (projectResult lang query)
          ++ servs.filterMap (serviceResult lang query)
          ++ posts.filterMap (postResult query))

/-- Embeds `performSearch` (src/unnamed/part_003, lines 88-187): bail out
on a blank query; otherwise set the searching/visible flags, run the
`try` body, and on success publish the sorted results and write the query
to the history; on a rejection only the `finally` clause runs (the result
list and history keep their previous values, no error is surfaced). -/
def performSearch (lang : Lang) (filters : Filters) (env : FetchEnv) (st : SearchState) :
    SearchState :=
  if strTrim st.searchQuery = ([] : Str) then st
  else
    let st1 := { st with isSearching := true, showResults := true }
    match searchBody lang st.searchQuery filters env with
    | .ok results =>
      { st1 with searchResults := sortResults filters.sortBy results,
                 searchHistory := saveSearchToHistory st.searchQuery st.searchHistory,
                 isSearching := false }
    | .error _ => { st1 with isSearching := false }

/-- Embeds the query effect of SearchSystem (src/unnamed/part_003, lines
39-49): setting the query re-runs the effect; a trimmed length above 2
schedules a debounced `performSearch` after 300 ms (returned as `some
300`), otherwise the result list is cleared and the panel hidden with no
search scheduled (`none`). -/
def onQueryChange (q : Str) (st : SearchState) : SearchState × Option Nat :=
  let st1 := { st with searchQuery := q }
  if 2 < (strTrim q).length then (st1, some 300)
  else ({ st1 with searchResults := [], showResults := false }, none)

/-- Runs a sequence of typed queries through the query effect, executing
the scheduled `performSearch` (with its debounce elapsed) whenever one was
scheduled. -/
def runSearches (lang : Lang) (filters : Filters) (env : FetchEnv)
    (queries : List Str) (st : SearchState) : SearchState :=
  queries.foldl
    (fun s q =>
      match onQueryChange q s with
      | (s1, some _) => performSearch lang filters env s1
      | (s1, none) => s1)
    st

/-- A fetch environment in which every collection is present and empty. -/
def envEmpty : FetchEnv :=
  { projects := .ok [], services := .ok [], posts := .ok [] }

/-- The role of a chat turn. -/
inductive Role where
  | user
  | model
deriving DecidableEq

/-- One transcript turn `{ role, parts: [{ text }] }`; the app always uses
a single-element `parts` array, embedded here as one text. -/
structure ChatTurn where
  role : Role
  text : Str
deriving DecidableEq

/-- The parsed lead-qualification JSON object (the `LeadQualification`
shape of the spec; `leadName`/`leadEmail`/`leadPhone` are optional in the
response schema). -/
structure LeadQualification where
  purchaseIntentScore : Int
  isHotLead : Bool
  leadName : Option Str := none
  leadEmail : Option Str := none
  leadPhone : Option Str := none
  businessSummary : Str := []
deriving DecidableEq

/-- Embeds `analyzeChatForLeadQualification` (src/unnamed/part_005, lines
61-95).  `aiConfigured` is whether the Gemini client was created (an API
key was present).  `aiCall` stands for the awaited `generateContent` call
followed by `JSON.parse(response.text.trim())`: `.error` covers both a
rejected call and a parse failure on malformed text (either lands in the
`catch`, which returns null); `.ok q` is a successfully parsed response
object.  `JSON.parse` performs no validation, so any parsed object is
returned as-is. -/
def analyzeChatForLeadQualification (aiConfigured : Bool) (chatHistory : List ChatTurn)
    (aiCall : Except Unit LeadQualification) : Option LeadQualification :=
  if !aiConfigured || chatHistory.length == 0 then none
  else
    match aiCall with
    | .ok q => some q
    | .error _ => none

/-- The two chatbot error messages of one language. -/
structure BotMessages where
  bot_error_key : Str
  bot_error_api : Str
deriving DecidableEq

/-- Modelled from the spec: the `translations` table lives in the
repository's `constants` module, which is not under src/ (only its
consumers are).  The spec's error taxonomy requires a fixed localized
"feature disabled" message for the unavailable-service case
(`bot_error_key`) and a distinct localized generic message for the
transient-call-failure case (`bot_error_api`), per language; the concrete
wording below is a faithful placeholder of that contract. -/
def translations (lang : Lang) : BotMessages :=
  match lang with
  | .en =>
    { bot_error_key := strOf "AI features are currently disabled.",
      bot_error_api := strOf "Sorry, something went wrong. Please try again." }
  | .ar =>
    { bot_error_key := strOf "ميزات الذكاء الاصطناعي معطلة حاليا.",
      bot_error_api := strOf "عذرا، حدث خطأ ما. حاول مرة أخرى." }

/-- Embeds `getChatbotResponse` (src/unnamed/part_005, lines 31-50): with
no configured client return the fixed `bot_error_key` message; otherwise
return the generated text, or `bot_error_api` when the call rejects. -/
def getChatbotResponse (aiConfigured : Bool) (prompt : Str) (chatHistory : List ChatTurn)
    (lang : Lang) (aiCall : Except Unit Str) : Str :=
  if !aiConfigured then (translations lang).bot_error_key
  else
    match aiCall with
    | .ok text => text
    | .error _ => (translations lang).bot_error_api

/-- Embeds `getBrainstormResponse` (src/unnamed/part_005, lines 158-177):
same error shape as `getChatbotResponse`. -/
def getBrainstormResponse (aiConfigured : Bool) (idea serviceTitle : Str) (lang : Lang)
    (aiCall : Except Unit Str) : Str :=
  if !aiConfigured then (translations lang).bot_error_key
  else
    match aiCall with
    | .ok text => text
    | .error _ => (translations lang).bot_error_api

/-- The `ConsultationResponse` interface of src/types.ts. -/
structure ConsultationResponse where
  problemAnalysis : Str
  proposedSolution : Str
  suggestedServices : List Str
deriving DecidableEq

/-- Embeds `getAiConsultation` (src/unnamed/part_005, lines 103-138): with
no configured client return null; otherwise return the parsed proposal, or
null when the call rejects or `JSON.parse` fails on malformed text (both
land in the `catch`). -/
def getAiConsultation (aiConfigured : Bool) (problemDescription : Str)
    (aiCall : Except Unit ConsultationResponse) : Option ConsultationResponse :=
  if !aiConfigured then none
  else
    match aiCall with
    | .ok r => some r
    | .error _ => none

/-- The chatbot view enumeration of src/App.tsx (line 393). -/
inductive ChatbotView where
  | main
  | services
  | serviceDetail
  | brainstormInput
  | brainstormResult
  | requestService
  | requestSuccess
  | consultationInput
  | consultationResult
deriving DecidableEq

/-- The service-detail pane `{ title, content }`. -/
structure ServiceDetailState where
  title : Str
  content : Str
deriving DecidableEq

/-- The "request this service" form data. -/
structure RequestForm where
  name : Str
  email : Str
  phone : Str
  message : Str
  contactMethod : List Str
deriving DecidableEq

/-- The empty request form. -/
def requestFormInit : RequestForm :=
  { name := [], email := [], phone := [], message := [], contactMethod := [] }

/-- The state of the Chatbot component of src/App.tsx that the claims
observe. -/
structure ChatState where
  isOpen : Bool
  view : ChatbotView
  serviceDetail : Option ServiceDetailState
  brainstormIdea : Str
  brainstormResult : Str
  consultationResult : Option ConsultationResponse
  consultationProblem : Str
  isLoading : Bool
  chatHistory : List ChatTurn
  requestFormData : RequestForm
  isConvoSaved : Bool
deriving DecidableEq

/-- Embeds `resetChat` (src/App.tsx, lines 412-423): every chat field back
to its initial value; `isOpen` is managed separately. -/
def resetChat (st : ChatState) : ChatState :=
  { st with
    view := .main,
    serviceDetail := none,
    brainstormIdea := [],
    brainstormResult := [],
    consultationResult := none,
    consultationProblem := [],
    chatHistory := [],
    requestFormData := requestFormInit,
    isConvoSaved := false }

/-- The closed widget in its initial state. -/
def chatClosedInit : ChatState :=
  { isOpen := false,
    view := .main,
    serviceDetail := none,
    brainstormIdea := [],
    brainstormResult := [],
    consultationResult := none,
    consultationProblem := [],
    isLoading := false,
    chatHistory := [],
    requestFormData := requestFormInit,
    isConvoSaved := false }

/-- Stands for `JSON.stringify(result)` in the model turn appended by
`handleConsultationSubmit`; the exact serialized text is irrelevant to
every claim. -/
def stringifyConsultation (r : ConsultationResponse) : Str :=
  r.problemAnalysis ++ r.proposedSolution
    ++ r.suggestedServices.foldl (fun a s => a ++ s) []

/-- Embeds `handleConsultationSubmit` (src/App.tsx, lines 567-582):
optimistically switch to the result view with a cleared proposal and the
user turn appended; when `getAiConsultation` resolves to a proposal,
render it and append the model turn, otherwise fall back to the input
view.  `consultationCall` is the value `getAiConsultation` returned. -/
def handleConsultationSubmit (st : ChatState)
    (consultationCall : Option ConsultationResponse) : ChatState :=
  let st1 := { st with
    isLoading := true,
    view := ChatbotView.consultationResult,
    consultationResult := none,
    chatHistory := st.chatHistory
      ++ [({ role := .user, text := strOf "Business Problem: " ++ st.consultationProblem } : ChatTurn)] }
  match consultationCall with
  | some r =>
    { st1 with
      consultationResult := some r,
      chatHistory := st1.chatHistory
        ++ [({ role := .model, text := strOf "Generated Proposal: " ++ stringifyConsultation r } : ChatTurn)],
      isLoading := false }
  | none => { st1 with view := ChatbotView.consultationInput, isLoading := false }

/-- The externally visible actions of `handleCloseChat`:
`qualificationCall` is the invocation of the lead-qualification routine
(`analyzeChatForLeadQualification`) over the accumulated transcript,
`webhookSend` the hot-lead POST to the n8n webhook. -/
inductive CloseAction where
  | qualificationCall
  | webhookSend
deriving DecidableEq, BEq

/-- Embeds `handleCloseChat` (src/App.tsx, lines 424-451): close the
widget; when the transcript is non-empty, qualify the lead once and, when
the result is a hot lead, fire the webhook (whose rejection is caught);
finally reset the chat state unconditionally.  `webhookOk` is the webhook
outcome; it influences nothing observable. -/
def handleCloseChat (aiConfigured : Bool) (aiCall : Except Unit LeadQualification)
    (webhookOk : Bool) (st : ChatState) : ChatState × List CloseAction :=
  let st1 := { st with isOpen := false }
  let acts :=
    if st.chatHistory.length > 0 then
      match analyzeChatForLeadQualification aiConfigured st.chatHistory aiCall with
      | some a =>
        if a.isHotLead then [CloseAction.qualificationCall, CloseAction.webhookSend]
        else [CloseAction.qualificationCall]
      | none => [CloseAction.qualificationCall]
    else []
  (resetChat st1, acts)

/-- A project titled "Automation Suite" (both languages) with no
description, category or image. -/
def projAutomation : ProjectRec :=
  { title := some { en := strOf "Automation Suite", ar := strOf "Automation Suite" },
    description := none,
    category := none,
    image := none }

/-- A fetch environment whose services fetch rejects while the projects
fetch succeeds with a record matching the query "auto" and the posts fetch
succeeds empty. -/
def envServicesFail : FetchEnv :=
  { projects := .ok [(strOf "p1", projAutomation)],
    services := .error (),
    posts := .ok [] }

/-- A search state about to execute the query "auto", with no previous
results and empty history. -/
def stAuto : SearchState :=
  { searchQuery := strOf "auto", searchResults := [], isSearching := false,
    showResults := false, searchHistory := [] }

/-- A sample published search result. -/
def dummyResult : SearchResult :=
  { id := strOf "r", title := strOf "t", description := strOf "d", type := .post,
    category := none, image := none, relevanceScore := 5 }

/-- A search state currently showing one result. -/
def stWithResults : SearchState :=
  { searchQuery := strOf "bot", searchResults := [dummyResult], isSearching := false,
    showResults := true, searchHistory := [] }

/-- A sample user turn. -/
def turnHello : ChatTurn := { role := .user, text := strOf "hello" }

/-- A parsed qualification response violating the hot-lead equivalence:
score 90 yet `isHotLead` false. -/
def qualMismatch : LeadQualification :=
  { purchaseIntentScore := 90, isHotLead := false,
    businessSummary := strOf "needs automation" }

/-- A well-formed parsed qualification response. -/
def qualOk : LeadQualification :=
  { purchaseIntentScore := 90, isHotLead := true,
    businessSummary := strOf "needs automation" }

/-- A sample parsed consultation proposal. -/
def consultationSample : ConsultationResponse :=
  { problemAnalysis := strOf "manual work",
    proposedSolution := strOf "an n8n workflow",
    suggestedServices := [strOf "n8n Process Automation"] }

/-- An open chat on the consultation input view with a typed problem. -/
def stChatOpen : ChatState :=
  { chatClosedInit with
    isOpen := true,
    view := .consultationInput,
    consultationProblem := strOf "my invoices are manual" }

theorem foldl_if_add {α : Type} (p : α → Bool) (w : Nat) :
    ∀ (l : List α) (s : Nat),
      l.foldl (fun acc x => if p x then acc + w else acc) s
        = s + w * (l.filter p).length := by
  intro l
  induction l with
  | nil => intro s; simp
  | cons x xs ih =>
    intro s
    simp only [List.foldl_cons, List.filter_cons]
    by_cases h : p x
    · simp only [h, if_true, ih, List.length_cons, Nat.mul_succ]
      omega
    · simp [h, ih]

theorem foldl_pairs (w : Nat) :
    ∀ (qws fws : List Str) (s : Nat),
      qws.foldl
          (fun s1 qw =>
            fws.foldl
              (fun s2 fw => if includesB fw qw || includesB qw fw then s2 + w else s2) s1)
          s
        = s + w * matchingPairs qws fws := by
  intro qws
  induction qws with
  | nil => intro fws s; simp [matchingPairs]
  | cons qw qws ih =>
    intro fws s
    simp only [List.foldl_cons]
    rw [foldl_if_add, ih]
    simp only [matchingPairs, List.map_cons, List.sum_cons]
    ring

theorem foldl_add_map_sum {α : Type} (g : α → Nat) :
    ∀ (l : List α) (s : Nat), l.foldl (fun acc x => acc + g x) s = s + (l.map g).sum := by
  intro l
  induction l with
  | nil => intro s; simp
  | cons x xs ih =>
    intro s
    simp only [List.foldl_cons, List.map_cons, List.sum_cons, ih]
    ring

/-- The source's fold-with-mutable-score computation equals the sum of
per-field contributions of the corrected formula. -/
theorem calculateRelevance_spec (query : Str) (fields : List Str) :
    calculateRelevance query fields = amendedRelevance query fields := by
  unfold calculateRelevance amendedRelevance
  rw [List.foldl_ext
      (g := fun acc p => acc + amendedFieldScore fields.length p.1 (strToLower query) p.2)]
  · rw [foldl_add_map_sum]
    exact (Nat.zero_add _)
  · intro score p _
    by_cases hf : p.2 = ([] : Str)
    · simp [hf, amendedFieldScore]
    · simp only [hf, if_false]
      rw [foldl_pairs]
      unfold amendedFieldScore
      simp only [hf, if_false]
      by_cases hinc : includesB (strToLower p.2) (strToLower query)
      · simp only [hinc, if_true]
        ring
      · simp only [hinc, Bool.false_eq_true, if_false]
        ring

theorem includesB_empty (s : Str) : includesB s [] = true := by
  cases s with
  | nil => rfl
  | cons c rest => simp [includesB, isPrefixB]

theorem splitOnSpace_ne_nil (s : Str) : splitOnSpace s ≠ [] := by
  cases s with
  | nil => simp [splitOnSpace]
  | cons c cs =>
    simp only [splitOnSpace]
    split
    · simp
    · split <;> simp

theorem splitOnSpace_all_space :
    ∀ (s : Str), (∀ c ∈ s, c = ' ') → ∀ w ∈ splitOnSpace s, w = ([] : Str) := by
  intro s
  induction s with
  | nil =>
    intro _ w hw
    simp only [splitOnSpace, List.mem_singleton] at hw
    exact hw
  | cons c cs ih =>
    intro hall w hw
    have hc : c = ' ' := hall c (by simp)
    have htail : ∀ c ∈ cs, c = ' ' := fun x hx => hall x (by simp [hx])
    rcases hsplit : splitOnSpace cs with _ | ⟨w0, ws⟩
    · exact absurd hsplit (splitOnSpace_ne_nil cs)
    · have heq : splitOnSpace (c :: cs) = [] :: w0 :: ws := by
        simp only [splitOnSpace, hsplit]
        rw [if_pos hc]
      rw [heq] at hw
      rcases List.mem_cons.mp hw with h | h
      · exact h
      · exact ih htail w (by rw [hsplit]; exact h)

theorem strToLower_all_space (q : Str) (h : ∀ c ∈ q, c = ' ') :
    ∀ c ∈ strToLower q, c = ' ' := by
  intro c hc
  rcases List.mem_map.mp hc with ⟨c0, hc0, rfl⟩
  rw [h c0 hc0]
  decide

theorem matchingPairs_pos (qws fws : List Str)
    (hq : ∃ q0 qs, qws = q0 :: qs ∧ q0 = ([] : Str)) (hf : fws ≠ []) :
    1 ≤ matchingPairs qws fws := by
  rcases hq with ⟨q0, qs, rfl, rfl⟩
  simp only [matchingPairs, List.map_cons, List.sum_cons]
  have hfilter : fws.filter (fun fw => includesB fw [] || includesB [] fw) = fws := by
    apply List.filter_eq_self.mpr
    intro fw _
    simp [includesB_empty]
  rw [hfilter]
  have : 1 ≤ fws.length := by
    cases fws with
    | nil => exact absurd rfl hf
    | cons _ _ => simp
  omega

theorem mem_enumFrom_of_mem {α : Type} {a : α} :
    ∀ (l : List α) (k : Nat), a ∈ l → ∃ i, i < l.length ∧ (k + i, a) ∈ l.enumFrom k := by
  intro l
  induction l with
  | nil => intro k h; cases h
  | cons x xs ih =>
    intro k h
    rcases List.mem_cons.mp h with h | h
    · exact ⟨0, by simp, by simp [List.enumFrom, h]⟩
    · rcases ih (k + 1) h with ⟨i, hi, hmem⟩
      refine ⟨i + 1, by simp; omega, ?_⟩
      simp only [List.enumFrom, List.mem_cons]
      right
      have : k + (i + 1) = k + 1 + i := by omega
      rw [this]
      exact hmem

theorem relevance_pos_of_space_query (q : Str) (fields : List Str)
    (hq : ∀ c ∈ q, c = ' ') (f : Str) (hfmem : f ∈ fields) (hfne : f ≠ ([] : Str)) :
    0 < calculateRelevance q fields := by
  rw [calculateRelevance_spec]
  unfold amendedRelevance
  rcases mem_enumFrom_of_mem fields 0 hfmem with ⟨i, hi, hmem⟩
  have hmem0 : (i, f) ∈ fields.enum := by
    have : (0 + i, f) = (i, f) := by simp
    rw [← this]
    exact hmem
  have hcontrib : 0 < amendedFieldScore fields.length i (strToLower q) f := by
    unfold amendedFieldScore
    rw [if_neg hfne]
    have hqlow : ∀ c ∈ strToLower q, c = ' ' := strToLower_all_space q hq
    have hqsplit : ∃ q0 qs, splitOnSpace (strToLower q) = q0 :: qs ∧ q0 = ([] : Str) := by
      rcases hsp : splitOnSpace (strToLower q) with _ | ⟨q0, qs⟩
      · exact absurd hsp (splitOnSpace_ne_nil _)
      · refine ⟨q0, qs, rfl, ?_⟩
        exact splitOnSpace_all_space _ hqlow q0 (by rw [hsp]; simp)
    have hpairs : 1 ≤ matchingPairs (splitOnSpace (strToLower q)) (splitOnSpace (strToLower f)) :=
      matchingPairs_pos _ _ hqsplit (splitOnSpace_ne_nil _)
    have hweight : 1 ≤ fields.length - i := by omega
    have : 1 * 2 * 1 ≤ (fields.length - i) * 2 * matchingPairs (splitOnSpace (strToLower q)) (splitOnSpace (strToLower f)) := by
      apply Nat.mul_le_mul
      · apply Nat.mul_le_mul_right
        exact hweight
      · exact hpairs
    omega
  have hle : amendedFieldScore fields.length i (strToLower q) f
      ≤ ((fields.enum.map (fun p => amendedFieldScore fields.length p.1 (strToLower q) p.2))).sum := by
    apply List.single_le_sum (by intro x _; omega)
    exact List.mem_map_of_mem _ hmem0
  omega

/-- C2 (counterexample): for the query "a " (with a trailing space) and
the single-field list ["z"], the source's calculateRelevance returns 2 —
`split(' ')` keeps an empty query word and `"z".includes("")` is true —
while the claimed whitespace-separated-words formula predicts 0. -/
theorem calculateRelevance_claim_formula_counterexample :
    calculateRelevance (strOf "a ") [strOf "z"] = 2
      ∧ claimRelevance (strOf "a ") [strOf "z"] = 0
      ∧ calculateRelevance (strOf "a ") [strOf "z"]
          ≠ claimRelevance (strOf "a ") [strOf "z"] :=
  ⟨by decide, by decide, by decide⟩

/-- C2 (amended): for every query string and field list, the relevance
score equals the sum over fields f_i at index i of (n - i) * 10 when the
lowercased field contains the full lowercased query, plus (n - i) * 2 for
every pair of query word and field word where one contains the other —
where the words are obtained by splitting on the single space character
with empty fragments kept (an empty fragment matches every word), and a
field that is the empty string contributes nothing. -/
theorem calculateRelevance_eq_amended (query : Str) (fields : List Str) :
    calculateRelevance query fields = amendedRelevance query fields :=
  calculateRelevance_spec query fields

/-- C4 (counterexample): the query "auto" against a Project titled
"Automation Suite" with empty description and category does not score
30. -/
theorem relevance_auto_not_thirty :
    calculateRelevance (strOf "auto") [strOf "Automation Suite", [], []] ≠ 30 := by
  decide

/-- C4 (amended): that query scores 36: (3-0)*10 = 30 from the full
substring match on the title plus (3-0)*2 = 6 from the word pair
("auto", "automation") where the field word contains the query word. -/
theorem relevance_auto_is_thirtysix :
    calculateRelevance (strOf "auto") [strOf "Automation Suite", [], []] = 30 + 6 := by
  decide

/-- C10 (counterexample): the tab-only query — whitespace-only but not
space-only — scores 0 against the field list ["x"] even though "x" is a
non-empty field: `split(' ')` does not split on tabs, so no empty query
word arises and no containment holds in either direction. -/
theorem relevance_tab_query_zero :
    calculateRelevance ['\t'] [strOf "x"] = 0 := by
  decide

/-- C10 (amended): for the empty query and every query consisting only of
space characters, calculateRelevance is strictly positive on every field
list containing at least one non-empty field (every string contains the
empty string, and splitting keeps an empty query word that matches every
field word); only the caller's trimmed-length > 2 guard prevents such
queries from matching every record. -/
theorem relevance_space_query_positive (q : Str) (fields : List Str)
    (hq : ∀ c ∈ q, c = ' ') (f : Str) (hmem : f ∈ fields) (hne : f ≠ ([] : Str)) :
    0 < calculateRelevance q fields :=
  relevance_pos_of_space_query q fields hq f hmem hne

/-- C10 witness: the single-space query scores positively against ["x"]. -/
theorem relevance_space_query_positive_witness :
    0 < calculateRelevance [' '] [strOf "x"] :=
  relevance_space_query_positive [' '] [strOf "x"] (by decide) (strOf "x")
    (by decide) (by decide)

/-- C8: whenever the trimmed query has length at most 2, the query effect
schedules no search — so no store fetch is issued — and immediately
clears the result list and hides the results panel. -/
theorem shortQuery_no_fetch_clears_results (q : Str) (st : SearchState)
    (h : (strTrim q).length ≤ 2) :
    (onQueryChange q st).2 = none
      ∧ (onQueryChange q st).1.searchResults = []
      ∧ (onQueryChange q st).1.showResults = false := by
  have hnot : ¬ 2 < (strTrim q).length := by omega
  simp [onQueryChange, if_neg hnot]

/-- C8 witness: the effect for the two-character query "ab" on a state
currently showing a result. -/
theorem shortQuery_no_fetch_clears_results_witness :
    (onQueryChange (strOf "ab") stWithResults).2 = none
      ∧ (onQueryChange (strOf "ab") stWithResults).1.searchResults = []
      ∧ (onQueryChange (strOf "ab") stWithResults).1.showResults = false :=
  shortQuery_no_fetch_clears_results (strOf "ab") stWithResults (by decide)

/-- C9: starting from the initial state, typing "a" (length 1, no search
scheduled), then "automation", "bot" and "automation" again — each
followed by its debounced successful search — leaves the history exactly
["automation", "bot"]: deduplicated, most recent first; and the history
saveSearchToHistory writes is always capped at 10 entries. -/
theorem search_history_scenario_and_cap :
    (runSearches .en filtersInit envEmpty
        [strOf "a", strOf "automation", strOf "bot", strOf "automation"]
        searchStateInit).searchHistory
      = [strOf "automation", strOf "bot"]
    ∧ ∀ (q : Str) (h : List Str), (saveSearchToHistory q h).length ≤ 10 := by
  constructor
  · decide
  · intro q h
    exact List.length_take_le 10 _

/-- C3 (counterexample): with the 'all' filter and query "auto", a
projects fetch succeeding with a matching record and a services fetch
that rejects, performSearch publishes nothing: the matching project's
contribution is dropped together with the failed collection's and the
history is not written, so no partial results render. -/
theorem performSearch_partial_results_counterexample :
    projectResult .en (strOf "auto") (strOf "p1", projAutomation) ≠ none
    ∧ (performSearch .en filtersInit envServicesFail stAuto).searchResults = []
    ∧ (performSearch .en filtersInit envServicesFail stAuto).searchHistory = [] :=
  ⟨by decide, by decide, by decide⟩

/-- C3 (amended): under the 'all' filter, a rejection of any of the three
collection fetches aborts the entire search silently: the result list and
history keep their previous values, the searching flag is cleared and the
panel stays shown — no partial results from the other collections are
computed or rendered. -/
theorem performSearch_fetch_error_aborts_all (lang : Lang) (sb : SortKey)
    (env : FetchEnv) (st : SearchState)
    (hq : strTrim st.searchQuery ≠ ([] : Str))
    (herr : isErr env.projects = true ∨ isErr env.services = true ∨ isErr env.posts = true) :
    performSearch lang { type := .all, sortBy := sb } env st
      = { st with isSearching := false, showResults := true } := by
  have hbody : searchBody lang st.searchQuery { type := .all, sortBy := sb } env
      = .error () := by
    unfold searchBody
    have hsel : ∀ k : TypeFilter, (({ type := .all, sortBy := sb } : Filters).type = TypeFilter.all
        ∨ ({ type := .all, sortBy := sb } : Filters).type = k) := by
      intro k; exact Or.inl rfl
    rcases herr with h | h | h
    · cases hp : env.projects with
      | error e => cases e; simp [hp]
      | ok l => rw [hp] at h; cases h
    · cases hp : env.projects with
      | error e => cases e; simp [hp]
      | ok lp =>
        cases hs : env.services with
        | error e => cases e; simp [hp, hs]
        | ok ls => rw [hs] at h; cases h
    · cases hp : env.projects with
      | error e => cases e; simp [hp]
      | ok lp =>
        cases hs : env.services with
        | error e => cases e; simp [hp, hs]
        | ok ls =>
          cases hpo : env.posts with
          | error e => cases e; simp [hp, hs, hpo]
          | ok lpo => rw [hpo] at h; cases h
  unfold performSearch
  rw [if_neg hq]
  simp only [hbody]

/-- C3 witness: the abort theorem applied to the concrete environment
whose services fetch rejects. -/
theorem performSearch_fetch_error_aborts_all_witness :
    performSearch .en { type := .all, sortBy := .relevance } envServicesFail stAuto
      = { stAuto with isSearching := false, showResults := true } :=
  performSearch_fetch_error_aborts_all .en .relevance envServicesFail stAuto
    (by decide) (Or.inr (Or.inl (by decide)))

/-- C1 (counterexample): analyzeChatForLeadQualification returns the
parsed AI response without validation, so a response with score 90 and
isHotLead false is produced as-is, violating the claimed equivalence
isHotLead = (purchaseIntentScore >= 85). -/
theorem analyzeChat_invariant_counterexample :
    analyzeChatForLeadQualification true [turnHello] (.ok qualMismatch) = some qualMismatch
    ∧ (85 : Int) ≤ qualMismatch.purchaseIntentScore
    ∧ qualMismatch.isHotLead = false :=
  ⟨by decide, by decide, by decide⟩

/-- C1 (amended): every LeadQualification value produced by
analyzeChatForLeadQualification is exactly the externally parsed AI
response, passed through unvalidated — so isHotLead = (purchaseIntentScore
>= 85) holds for a produced value exactly when the AI's own response
satisfies it; the response schema requests the equivalence from the model
but the code never enforces it. -/
theorem analyzeChat_passthrough (aiConfigured : Bool) (hist : List ChatTurn)
    (aiCall : Except Unit LeadQualification) (q : LeadQualification)
    (h : analyzeChatForLeadQualification aiConfigured hist aiCall = some q) :
    aiCall = .ok q := by
  unfold analyzeChatForLeadQualification at h
  by_cases hc : (!aiConfigured || hist.length == 0) = true
  · rw [if_pos hc] at h; cases h
  · rw [if_neg hc] at h
    cases aiCall with
    | ok r =>
      rw [Option.some.injEq] at h
      rw [h]
    | error e => cases h

/-- C1 witness: the passthrough theorem at a concrete successful call. -/
theorem analyzeChat_passthrough_witness :
    (Except.ok qualOk : Except Unit LeadQualification) = .ok qualOk :=
  analyzeChat_passthrough true [turnHello] (.ok qualOk) qualOk (by decide)

/-- C5 (counterexample): for getAiConsultation and the lead-qualification
call, the unavailable-service case and the transient-failure case produce
the very same value (null), so those callers cannot render different
messages for the two cases. -/
theorem consultation_cases_indistinguishable :
    getAiConsultation false (strOf "p") (.ok consultationSample)
        = getAiConsultation true (strOf "p") (.error ())
    ∧ analyzeChatForLeadQualification false [turnHello] (.ok qualOk)
        = analyzeChatForLeadQualification true [turnHello] (.error ()) :=
  ⟨rfl, rfl⟩

/-- C5 (amended): getChatbotResponse and getBrainstormResponse do return
distinct localized messages in the two cases — the fixed bot_error_key
string when the client is unconfigured and the bot_error_api string when
the call fails — but getAiConsultation and the lead-qualification call
return null in both cases, so those two callers cannot distinguish
unavailable-service from call-failure. -/
theorem ai_call_sites_error_messages (lang : Lang) (prompt idea title problem : Str)
    (hist : List ChatTurn) (turn : ChatTurn) (tcall : Except Unit Str)
    (ccall : Except Unit ConsultationResponse) (qcall : Except Unit LeadQualification) :
    (getChatbotResponse false prompt hist lang tcall = (translations lang).bot_error_key
      ∧ getChatbotResponse true prompt hist lang (.error ()) = (translations lang).bot_error_api
      ∧ (translations lang).bot_error_key ≠ (translations lang).bot_error_api)
    ∧ (getBrainstormResponse false idea title lang tcall = (translations lang).bot_error_key
      ∧ getBrainstormResponse true idea title lang (.error ()) = (translations lang).bot_error_api)
    ∧ (getAiConsultation false problem ccall = none
      ∧ getAiConsultation true problem (.error ()) = none)
    ∧ (analyzeChatForLeadQualification false [turn] qcall = none
      ∧ analyzeChatForLeadQualification true [turn] (.error ()) = none) := by
  refine ⟨⟨rfl, rfl, ?_⟩, ⟨rfl, rfl⟩, ⟨rfl, rfl⟩, ⟨rfl, rfl⟩⟩
  cases lang <;> decide

/-- C6: when getAiConsultation yields null — the structured call failed
or its JSON was unparseable — handleConsultationSubmit leaves the view on
ConsultationInput and renders no proposal object. -/
theorem consultation_failure_returns_to_input (st : ChatState) (aiConfigured : Bool)
    (raw : Except Unit ConsultationResponse)
    (h : getAiConsultation aiConfigured st.consultationProblem raw = none) :
    (handleConsultationSubmit st
        (getAiConsultation aiConfigured st.consultationProblem raw)).view
      = ChatbotView.consultationInput
    ∧ (handleConsultationSubmit st
        (getAiConsultation aiConfigured st.consultationProblem raw)).consultationResult
      = none := by
  rw [h]
  exact ⟨rfl, rfl⟩

/-- C6 witness: a configured client whose structured call rejects (network
failure or malformed JSON) on the concrete open chat state. -/
theorem consultation_failure_returns_to_input_witness :
    (handleConsultationSubmit stChatOpen
        (getAiConsultation true stChatOpen.consultationProblem (.error ()))).view
      = ChatbotView.consultationInput
    ∧ (handleConsultationSubmit stChatOpen
        (getAiConsultation true stChatOpen.consultationProblem (.error ()))).consultationResult
      = none :=
  consultation_failure_returns_to_input stChatOpen true (.error ()) (by decide)

/-- C7: closing the widget invokes the lead-qualification call exactly
once when the accumulated transcript is non-empty and never when it is
empty, and the chat session state (view, transcript, drafts, proposal,
form, saved flag) together with the open flag always returns to its
initial state, whatever the qualification call or the webhook outcome. -/
theorem handleCloseChat_qualification_once_and_reset (aiConfigured : Bool)
    (aiCall : Except Unit LeadQualification) (webhookOk : Bool) (st : ChatState) :
    ((handleCloseChat aiConfigured aiCall webhookOk st).2.count CloseAction.qualificationCall
        = if st.chatHistory.isEmpty then 0 else 1)
    ∧ (handleCloseChat aiConfigured aiCall webhookOk st).1.isOpen = false
    ∧ (handleCloseChat aiConfigured aiCall webhookOk st).1.view = ChatbotView.main
    ∧ (handleCloseChat aiConfigured aiCall webhookOk st).1.chatHistory = []
    ∧ (handleCloseChat aiConfigured aiCall webhookOk st).1.serviceDetail = none
    ∧ (handleCloseChat aiConfigured aiCall webhookOk st).1.brainstormIdea = []
    ∧ (handleCloseChat aiConfigured aiCall webhookOk st).1.brainstormResult = []
    ∧ (handleCloseChat aiConfigured aiCall webhookOk st).1.consultationResult = none
    ∧ (handleCloseChat aiConfigured aiCall webhookOk st).1.consultationProblem = []
    ∧ (handleCloseChat aiConfigured aiCall webhookOk st).1.requestFormData = requestFormInit
    ∧ (handleCloseChat aiConfigured aiCall webhookOk st).1.isConvoSaved = false := by
  have hcount : (handleCloseChat aiConfigured aiCall webhookOk st).2.count
      CloseAction.qualificationCall = if st.chatHistory.isEmpty then 0 else 1 := by
    unfold handleCloseChat
    cases hh : st.chatHistory with
    | nil => rfl
    | cons t ts =>
      simp only [List.length_cons, gt_iff_lt, Nat.zero_lt_succ, if_true, List.isEmpty_cons,
        Bool.false_eq_true, if_false]
      generalize analyzeChatForLeadQualification aiConfigured (t :: ts) aiCall = res
      cases res with
      | none => rfl
      | some a =>
        obtain ⟨score, hot, n1, n2, n3, bs⟩ := a
        cases hot <;> rfl
  exact ⟨hcount, rfl, rfl, rfl, rfl, rfl, rfl, rfl, rfl, rfl, rfl⟩
